import Mathlib

/-!
Verification of the stroke-capture and snapshot-history core of the drawing
app (`src/src/Drawing.tsx`), embedded shallowly in Lean.

The component's React state is modelled as an explicit record `DState`; each
handler (`startDrawing`, `draw`, `endDrawing`, `undo`, `redo`,
`loadHistoryState`, `clearCanvas`) becomes a function `DState → DState`,
translated line by line from the source. The canvas raster is abstracted as
the append-ordered log of line segments painted onto it since it was last
cleared (later entries paint over earlier ones). The source calls
`ctx.beginPath()` only in `startDrawing`, so the canvas path accumulates
every point of the in-progress stroke and each `ctx.stroke()` in `draw`
re-strokes the whole accumulated path with the current `lineWidth` and
`strokeStyle`; the model carries that path explicitly in the state.
Furthermore,
`canvas.toDataURL()` is a lossless encoding of full pixel content, so a
snapshot's `dataURL` field is identified with the surface value it encodes
(decode ∘ encode = id). All operations are modelled in the mounted state
(`canvasRef.current ≠ null` and `getContext` succeeds): when the canvas is
unmounted every handler is a global no-op, which no claim exercises. In the
synchronous model `loadHistoryState` applies the decoded image immediately
(the `img.onload` callback runs before the next event); the asynchronous
decode hazard is modelled separately by `AState`, where each in-flight
`Image` decode is an entry of a pending list and its `onload` can fire at
any later point, in any order — exactly what the source's unguarded
`img.onload = () => { clearRect; drawImage }` allows.
-/

namespace DrawingApp

/-- A point in surface coordinates (logical canvas pixels), as produced by
`getMousePos`. Coordinates are rationals, modelling the real-valued
arithmetic of the source. -/
structure Point where
  x : ℚ
  y : ℚ
deriving DecidableEq, Repr

/-- One painted line segment of the surface log: one consecutive pair of
path points stroked by a `ctx.stroke()` call, with the `lineWidth` and
`strokeStyle` in force at that call (lines 75–78). -/
structure Segment where
  src : Point
  dst : Point
  lineWidth : Int
  strokeStyle : String
deriving DecidableEq, Repr

/-- The canvas pixel content, abstracted as the segments drawn since the
last full clear. -/
abbrev Surface := List Segment

/-- The source's `interface DrawingHistory` (lines 4–8): one committed
snapshot. `dataURL` holds `canvas.toDataURL()`; since that encoding is
lossless we identify it with the surface content it encodes. -/
structure DrawingHistory where
  dataURL : Surface
  strokeWidth : Int
  color : String
deriving DecidableEq, Repr

/-- The component state of `Drawing` (lines 11–16): tool state
(`strokeWidth`, `color`), the in-progress-stroke flag `isDrawing`, the
history list and cursor, the canvas content, the canvas path's current
point (set by `moveTo`/`lineTo`), and the full canvas path accumulated
since the last `beginPath` — the source calls `beginPath` only in
`startDrawing` (line 61), so the path holds every point of the in-progress
stroke. -/
structure DState where
  strokeWidth : Int
  color : String
  isDrawing : Bool
  history : List DrawingHistory
  historyIndex : Int
  surface : Surface
  lastPos : Point
  path : List Point
deriving DecidableEq, Repr

/-- The initial React state: `strokeWidth = 8`, `color = "#000000"`,
`isDrawing = false`, `history = []`, `historyIndex = -1`, blank canvas. -/
def initialState : DState :=
  { strokeWidth := 8
    color := "#000000"
    isDrawing := false
    history := []
    historyIndex := -1
    surface := []
    lastPos := ⟨0, 0⟩
    path := [] }

/-- `getMousePos` (lines 42–53): `scaleX = canvas.width / rect.width`,
`x = (evt.clientX - rect.left) * scaleX`, and likewise for `y`. -/
def getMousePos (canvasWidth canvasHeight rectLeft rectTop rectWidth rectHeight
    clientX clientY : ℚ) : Point :=
  let scaleX := canvasWidth / rectWidth
  let scaleY := canvasHeight / rectHeight
  ⟨(clientX - rectLeft) * scaleX, (clientY - rectTop) * scaleY⟩

/-- Modelled from the spec (§4.1): `surfaceX = (pointerX - rectLeft) *
logicalWidth/displayedWidth`, similarly for Y. Stated separately so the
source function can be proved equal to the spec's formula. -/
def getMousePosSpec (canvasWidth canvasHeight rectLeft rectTop rectWidth rectHeight
    clientX clientY : ℚ) : Point :=
  ⟨(clientX - rectLeft) * canvasWidth / rectWidth,
   (clientY - rectTop) * canvasHeight / rectHeight⟩

/-- `startDrawing` (lines 55–66): `beginPath(); moveTo(pos); setIsDrawing(true)`.
`beginPath` resets the canvas path; `moveTo` makes `pos` its only point.
No pixels change. -/
def startDrawing (pos : Point) (s : DState) : DState :=
  { s with lastPos := pos, isDrawing := true, path := [pos] }

/-- The segments a `ctx.stroke()` call paints: one segment per consecutive
pair of path points, all with the `lineWidth` and `strokeStyle` in force at
that call. A single-point path paints nothing. -/
def pathSegments (path : List Point) (w : Int) (c : String) : List Segment :=
  List.zipWith (fun a b => ⟨a, b, w, c⟩) path path.tail

/-- `draw` (lines 68–81): no-op unless `isDrawing`; otherwise
`lineTo(pos)` appends `pos` to the canvas path and `stroke()` paints the
*entire* accumulated path — `beginPath` is never called between segments —
with the *current* `strokeWidth` and `color`, re-painting the earlier
segments of the in-progress stroke as well; the path's current point
becomes `pos`. -/
def draw (pos : Point) (s : DState) : DState :=
  if s.isDrawing then
    { s with
      surface := s.surface ++ pathSegments (s.path ++ [pos]) s.strokeWidth s.color
      lastPos := pos
      path := s.path ++ [pos] }
  else s

/-- JavaScript `Array.prototype.slice(0, e)`: a negative `e` counts from the
end of the array, and the bound is clamped to `[0, length]`. -/
def jsSliceEnd (l : List DrawingHistory) (e : Int) : List DrawingHistory :=
  if e < 0 then l.take ((l.length : Int) + e).toNat else l.take e.toNat

/-- `endDrawing` (lines 83–95): with the canvas mounted it unconditionally
sets `isDrawing := false`, builds a snapshot from the current surface and
tool state, sets `history := [...history.slice(0, historyIndex + 1),
newHistory]` and `historyIndex := historyIndex + 1`. Note the source never
tests `isDrawing` here. -/
def endDrawing (s : DState) : DState :=
  { s with
    isDrawing := false
    history := jsSliceEnd s.history (s.historyIndex + 1) ++
      [⟨s.surface, s.strokeWidth, s.color⟩]
    historyIndex := s.historyIndex + 1 }

/-- `loadHistoryState` (lines 111–126), synchronous idealization: reads
`history[index]`, replaces the surface by the decoded snapshot image
(`clearRect` then `drawImage`) and restores `strokeWidth` and `color` from
the snapshot. The source would throw on an out-of-range index
(`history[index]` is `undefined`); both callers guard the index, so the
out-of-range branch (modelled as a no-op) is unreachable from them. -/
def loadHistoryState (index : Nat) (s : DState) : DState :=
  match s.history[index]? with
  | some h => { s with surface := h.dataURL, strokeWidth := h.strokeWidth, color := h.color }
  | none => s

/-- `undo` (lines 97–102): only if `historyIndex > 0`, decrement the cursor
and load that history state. -/
def undo (s : DState) : DState :=
  if 0 < s.historyIndex then
    loadHistoryState (s.historyIndex - 1).toNat { s with historyIndex := s.historyIndex - 1 }
  else s

/-- `redo` (lines 104–109): only if `historyIndex < history.length - 1`,
increment the cursor and load that history state. -/
def redo (s : DState) : DState :=
  if s.historyIndex < (s.history.length : Int) - 1 then
    loadHistoryState (s.historyIndex + 1).toNat { s with historyIndex := s.historyIndex + 1 }
  else s

/-- `clearCanvas` (lines 128–138): wipes the canvas (`clearRect`), sets
`history := []` and `historyIndex := -1`. No snapshot is pushed. -/
def clearCanvas (s : DState) : DState :=
  { s with surface := [], history := [], historyIndex := -1 }

/-- The color-swatch `onClick` handler (line 161): `setColor(c)`. -/
def setColor (c : String) (s : DState) : DState := { s with color := c }

/-- The stroke-width slider `onChange` handler (line 177):
`setStrokeWidth(parseInt(e.target.value))`. -/
def setStrokeWidth (w : Int) (s : DState) : DState := { s with strokeWidth := w }

/-- The history invariant stated in the spec (§3):
`-1 <= historyIndex <= length(history) - 1`. -/
def Inv (s : DState) : Prop :=
  -1 ≤ s.historyIndex ∧ s.historyIndex ≤ (s.history.length : Int) - 1

/-! ### Asynchronous decode model

In the source, `loadHistoryState` restores the surface through
`img.onload`, which fires whenever the browser finishes decoding that
`Image` — with no sequence number or staleness check, and decode
completions of distinct images are not ordered. `AState` makes each
in-flight decode explicit: `pending` lists the decoded-image contents of
`Image` objects whose `onload` has not yet fired, in issue order;
`completeDecode k` fires the `onload` of the `k`-th in-flight image, which
unconditionally clears the canvas and draws that image. -/

/-- Component state plus the in-flight image decodes of `loadHistoryState`
calls whose `onload` has not yet fired. -/
structure AState where
  strokeWidth : Int
  color : String
  history : List DrawingHistory
  historyIndex : Int
  surface : Surface
  pending : List Surface
deriving DecidableEq, Repr

/-- `loadHistoryState` (lines 111–126), asynchronous model: synchronously
restores the tool state and starts an image decode; the surface is not
touched until that decode's `onload` fires. -/
def loadHistoryStateA (index : Nat) (s : AState) : AState :=
  match s.history[index]? with
  | some h =>
    { s with
      pending := s.pending ++ [h.dataURL]
      strokeWidth := h.strokeWidth
      color := h.color }
  | none => s

/-- `undo` over the asynchronous model. -/
def undoA (s : AState) : AState :=
  if 0 < s.historyIndex then
    loadHistoryStateA (s.historyIndex - 1).toNat { s with historyIndex := s.historyIndex - 1 }
  else s

/-- `redo` over the asynchronous model. -/
def redoA (s : AState) : AState :=
  if s.historyIndex < (s.history.length : Int) - 1 then
    loadHistoryStateA (s.historyIndex + 1).toNat { s with historyIndex := s.historyIndex + 1 }
  else s

/-- The `onload` callback of the `k`-th in-flight image (lines 118–121):
`ctx.clearRect(...); ctx.drawImage(img, 0, 0)` — it overwrites the whole
surface with that image, with no check that the request is still the
latest. -/
def completeDecode (k : Nat) (s : AState) : AState :=
  match s.pending[k]? with
  | some img => { s with surface := img, pending := s.pending.eraseIdx k }
  | none => s

/-! ### Concrete fixtures used by counterexamples and witnesses -/

/-- A red width-4 segment. -/
def segRed : Segment := ⟨⟨0, 0⟩, ⟨1, 1⟩, 4, "#FF0000"⟩

/-- A blue width-10 segment. -/
def segBlue : Segment := ⟨⟨1, 1⟩, ⟨2, 2⟩, 10, "#0000FF"⟩

/-- Snapshot after stroke A: one red segment, tool state width 4 / red. -/
def snapA : DrawingHistory := ⟨[segRed], 4, "#FF0000"⟩

/-- Snapshot after stroke B: red then blue segment, tool state
width 10 / blue. -/
def snapB : DrawingHistory := ⟨[segRed, segBlue], 10, "#0000FF"⟩

/-- An idle state (no stroke in progress) with one committed snapshot. -/
def stIdle : DState :=
  { strokeWidth := 4
    color := "#FF0000"
    isDrawing := false
    history := [snapA]
    historyIndex := 0
    surface := [segRed]
    lastPos := ⟨1, 1⟩
    path := [⟨0, 0⟩, ⟨1, 1⟩] }

/-- A state after strokes A and B, one undo already taken (cursor at 0), a
new green width-2 stroke in progress: committing it must truncate `snapB`
away. -/
def stTrunc : DState :=
  { strokeWidth := 2
    color := "#00FF00"
    isDrawing := true
    history := [snapA, snapB]
    historyIndex := 0
    surface := [segRed, ⟨⟨0, 0⟩, ⟨3, 3⟩, 2, "#00FF00"⟩]
    lastPos := ⟨3, 3⟩
    path := [⟨0, 0⟩, ⟨3, 3⟩] }

/-- A state in sync with its current snapshot `snapB`: surface and tool
state match the snapshot at the cursor. -/
def stSync : DState :=
  { strokeWidth := 10
    color := "#0000FF"
    isDrawing := false
    history := [snapA, snapB]
    historyIndex := 1
    surface := [segRed, segBlue]
    lastPos := ⟨2, 2⟩
    path := [⟨1, 1⟩, ⟨2, 2⟩] }

/-- `stSync` after the user picks green from the palette without drawing:
tool state no longer matches the snapshot at the cursor. -/
def stChanged : DState := setColor "#00FF00" stSync

/-- Async-model state matching `stSync`, with no decode in flight. -/
def aStart : AState :=
  { strokeWidth := 10
    color := "#0000FF"
    history := [snapA, snapB]
    historyIndex := 1
    surface := [segRed, segBlue]
    pending := [] }

/-- The async trace for the stale-decode hazard: `undo` then `redo` are
issued before either decode completes; the `redo` image decodes first, the
stale `undo` image last. -/
def aStale : AState := completeDecode 0 (completeDecode 1 (redoA (undoA aStart)))

/-- `stIdle` with a stroke started at `(1, 1)`. -/
def stStroke : DState := startDrawing ⟨1, 1⟩ stIdle

/-- `stStroke` after drawing one segment to `(2, 2)`: the path is
`[(1,1), (2,2)]` and the segment was painted red with width 4. -/
def stStroke2 : DState := draw ⟨2, 2⟩ stStroke

end DrawingApp

namespace DrawingApp

/-! ### Helper lemmas -/

/-- `loadHistoryState` never touches the history list. -/
theorem loadHistoryState_history (k : Nat) (s : DState) :
    (loadHistoryState k s).history = s.history := by
  unfold loadHistoryState
  cases s.history[k]? <;> rfl

/-- `loadHistoryState` never touches the history cursor. -/
theorem loadHistoryState_historyIndex (k : Nat) (s : DState) :
    (loadHistoryState k s).historyIndex = s.historyIndex := by
  unfold loadHistoryState
  cases s.history[k]? <;> rfl

/-- `loadHistoryState` never touches the in-progress-stroke flag. -/
theorem loadHistoryState_isDrawing (k : Nat) (s : DState) :
    (loadHistoryState k s).isDrawing = s.isDrawing := by
  unfold loadHistoryState
  cases s.history[k]? <;> rfl

/-- `loadHistoryState` never touches the path's current point. -/
theorem loadHistoryState_lastPos (k : Nat) (s : DState) :
    (loadHistoryState k s).lastPos = s.lastPos := by
  unfold loadHistoryState
  cases s.history[k]? <;> rfl

/-- Under the history invariant, a commit grows the (truncated) history to
exactly `historyIndex + 2` entries. -/
theorem endDrawing_length (s : DState) (h1 : -1 ≤ s.historyIndex)
    (h2 : s.historyIndex ≤ (s.history.length : Int) - 1) :
    ((endDrawing s).history.length : Int) = s.historyIndex + 2 := by
  have he : ¬ (s.historyIndex + 1 < 0) := by omega
  simp [endDrawing, jsSliceEnd, he, List.length_take]
  omega

/-! ### Claims -/

/-- C1: the claim says that in an idle state (no stroke in progress,
`isDrawing = false`) `endDrawing` leaves history and cursor unchanged. The
code violates it: `endDrawing` (lines 83–95) never tests `isDrawing` and,
whenever the canvas is mounted, unconditionally commits a fresh snapshot —
so a redundant pointer-up/pointer-leave (e.g. `onMouseOut` firing while not
drawing) grows the history and advances the cursor. This theorem evaluates
the code on a concrete idle state and exhibits the extra commit. -/
theorem C1_endDrawing_commits_even_when_idle :
    stIdle.isDrawing = false ∧
    (endDrawing stIdle).history.length = stIdle.history.length + 1 ∧
    (endDrawing stIdle).historyIndex = stIdle.historyIndex + 1 :=
  ⟨rfl, by decide, rfl⟩

/-- C2: under the history invariant, a commit (`endDrawing`) sets
`history := history[0..index+1] ++ [snapshot]` (truncate-then-append) and
`index := index + 1`; consequently the new cursor sits at the last entry
and an immediately following `redo()` is a no-op. -/
theorem C2_commit_truncate_append (s : DState) (h1 : -1 ≤ s.historyIndex)
    (h2 : s.historyIndex ≤ (s.history.length : Int) - 1) :
    (endDrawing s).history =
      s.history.take (s.historyIndex + 1).toNat ++ [⟨s.surface, s.strokeWidth, s.color⟩] ∧
    (endDrawing s).historyIndex = s.historyIndex + 1 ∧
    (endDrawing s).historyIndex = ((endDrawing s).history.length : Int) - 1 ∧
    redo (endDrawing s) = endDrawing s := by
  have he : ¬ (s.historyIndex + 1 < 0) := by omega
  have hh : (endDrawing s).history =
      s.history.take (s.historyIndex + 1).toNat ++ [⟨s.surface, s.strokeWidth, s.color⟩] := by
    simp [endDrawing, jsSliceEnd, he]
  have hi : (endDrawing s).historyIndex = s.historyIndex + 1 := rfl
  have hlen : ((endDrawing s).history.length : Int) = s.historyIndex + 2 :=
    endDrawing_length s h1 h2
  refine ⟨hh, hi, by omega, ?_⟩
  unfold redo
  rw [if_neg (by omega : ¬ (endDrawing s).historyIndex < ((endDrawing s).history.length : Int) - 1)]

/-- C2 witness: committing the in-progress green stroke of `stTrunc`
(history `[snapA, snapB]`, cursor `0`) truncates `snapB` away, appends the
new snapshot, leaves the cursor at the end, and makes `redo` a no-op. -/
theorem C2_commit_truncate_append_witness :
    (-1 ≤ stTrunc.historyIndex ∧ stTrunc.historyIndex ≤ (stTrunc.history.length : Int) - 1) ∧
    ((endDrawing stTrunc).history =
      stTrunc.history.take (stTrunc.historyIndex + 1).toNat ++
        [⟨stTrunc.surface, stTrunc.strokeWidth, stTrunc.color⟩] ∧
    (endDrawing stTrunc).historyIndex = stTrunc.historyIndex + 1 ∧
    (endDrawing stTrunc).historyIndex = ((endDrawing stTrunc).history.length : Int) - 1 ∧
    redo (endDrawing stTrunc) = endDrawing stTrunc) :=
  ⟨⟨by decide, by decide⟩, C2_commit_truncate_append stTrunc (by decide) (by decide)⟩

/-- C3 counterexample: the claim requires `undo` then `redo` to restore the
pre-undo state bit-identically *even when the tool state was changed between
the last commit and the undo*. On the code this fails: in `stChanged` the
user picked green after `snapB` (blue) was committed; `redo` restores the
snapshot's blue, not the pre-undo green, so the round trip is not the
identity there. -/
theorem C3_tool_change_roundtrip_counterexample :
    0 < stChanged.historyIndex ∧
    stChanged.historyIndex ≤ (stChanged.history.length : Int) - 1 ∧
    stChanged.color = "#00FF00" ∧
    (redo (undo stChanged)).color = "#0000FF" ∧
    redo (undo stChanged) ≠ stChanged :=
  ⟨by decide, by decide, rfl, rfl,
    fun h => absurd (congrArg DState.color h) (by decide)⟩

/-- C3 amended: for every state with cursor `> 0` whose surface and tool
state agree with the snapshot at the cursor (i.e. no tool change or drawing
since that snapshot was committed or restored), `undo()` followed by
`redo()` restores the entire state bit-identically. -/
theorem C3_undo_redo_roundtrip (s : DState) (snap : DrawingHistory)
    (h0 : 0 < s.historyIndex)
    (hget : s.history[s.historyIndex.toNat]? = some snap)
    (hs : s.surface = snap.dataURL)
    (hw : s.strokeWidth = snap.strokeWidth)
    (hc : s.color = snap.color) :
    redo (undo s) = s := by
  have hlen : s.historyIndex.toNat < s.history.length := by
    by_contra hcon
    rw [List.getElem?_eq_none (by omega)] at hget
    cases hget
  obtain ⟨prev, hprev⟩ : ∃ p, s.history[(s.historyIndex - 1).toNat]? = some p :=
    ⟨s.history.get ⟨(s.historyIndex - 1).toNat, by omega⟩, by
      rw [List.getElem?_eq_getElem (by omega)]
      rfl⟩
  obtain ⟨w, c, dflag, hist, i, surf, lp, pth⟩ := s
  simp only at h0 hget hs hw hc hlen hprev
  rw [undo]
  rw [if_pos h0]
  rw [loadHistoryState]
  simp only [hprev]
  rw [redo]
  rw [if_pos (by simpa using (by omega : i - 1 < (hist.length : Int) - 1))]
  rw [loadHistoryState]
  have hix : (i - 1 + 1).toNat = i.toNat := by omega
  simp only [hix, hget, hs, hw, hc]
  simp only [show i - 1 + 1 = i from by omega]

/-- C3 witness: on `stSync` (in sync with its current snapshot `snapB`),
`undo` then `redo` is the identity. -/
theorem C3_undo_redo_roundtrip_witness :
    stSync.history[stSync.historyIndex.toNat]? = some snapB ∧
    0 < stSync.historyIndex ∧
    redo (undo stSync) = stSync :=
  ⟨rfl, by decide, C3_undo_redo_roundtrip stSync snapB (by decide) rfl rfl rfl rfl⟩

/-- C4: the invariant `-1 ≤ historyIndex ≤ length(history) - 1` holds in the
initial state (empty history, cursor `-1`) and is preserved by commit
(`endDrawing`), `undo`, `redo`, and `clearCanvas`. -/
theorem C4_invariant_initial_and_preserved :
    Inv initialState ∧ ∀ s : DState, Inv s →
      Inv (endDrawing s) ∧ Inv (undo s) ∧ Inv (redo s) ∧ Inv (clearCanvas s) := by
  constructor
  · exact ⟨by norm_num [initialState, Inv], by norm_num [initialState, Inv]⟩
  · rintro s ⟨h1, h2⟩
    refine ⟨⟨by simp [endDrawing]; omega, ?_⟩, ?_, ?_,
      ⟨by norm_num [clearCanvas, Inv], by norm_num [clearCanvas, Inv]⟩⟩
    · have hlen := endDrawing_length s h1 h2
      have hi : (endDrawing s).historyIndex = s.historyIndex + 1 := rfl
      omega
    · unfold undo
      by_cases hc : 0 < s.historyIndex
      · rw [if_pos hc]
        constructor
        · rw [loadHistoryState_historyIndex]; simp; omega
        · rw [loadHistoryState_historyIndex, loadHistoryState_history]; simp; omega
      · rw [if_neg hc]; exact ⟨h1, h2⟩
    · unfold redo
      by_cases hc : s.historyIndex < (s.history.length : Int) - 1
      · rw [if_pos hc]
        constructor
        · rw [loadHistoryState_historyIndex]; simp; omega
        · rw [loadHistoryState_historyIndex, loadHistoryState_history]; simp; omega
      · rw [if_neg hc]; exact ⟨h1, h2⟩

/-- C4 witness: the invariant holds initially and, instantiated at the
concrete invariant-satisfying state `stIdle`, is preserved by all four
operations. -/
theorem C4_invariant_witness :
    Inv initialState ∧
    (Inv (endDrawing stIdle) ∧ Inv (undo stIdle) ∧ Inv (redo stIdle) ∧
      Inv (clearCanvas stIdle)) :=
  ⟨C4_invariant_initial_and_preserved.1,
   C4_invariant_initial_and_preserved.2 stIdle ⟨by decide, by decide⟩⟩

/-- C5: the claim requires that a stale asynchronous decode completion never
overwrite the surface state of a more recently requested history index. The
code violates it: `loadHistoryState` (lines 111–126) attaches an unguarded
`img.onload` that clears and redraws the canvas whenever its own decode
finishes, with no sequence number or staleness check. Concretely, from
`aStart` (cursor 1) an `undo` and then a `redo` are issued before either
decode completes; the `redo` image (snapshot `snapB`) decodes first, then
the stale `undo` image (snapshot `snapA`) decodes and overwrites it — the
final surface shows `snapA` although the most recently requested index is 1,
whose snapshot is `snapB`. -/
theorem C5_stale_decode_overwrites_newer_state :
    aStale.historyIndex = 1 ∧
    aStale.history[aStale.historyIndex.toNat]? = some snapB ∧
    aStale.pending = [] ∧
    aStale.surface = snapA.dataURL ∧
    aStale.surface ≠ snapB.dataURL :=
  ⟨rfl, rfl, rfl, rfl,
    fun h => absurd (congrArg List.length h) (by decide)⟩

/-- C6: `undo()` at cursor `0` or on empty history (cursor `-1`) leaves the
entire state unchanged, and `redo()` at cursor `length - 1` leaves the
entire state unchanged; both are total functions (the guard is a
bounds-checked silent no-op, no error path exists). -/
theorem C6_out_of_range_noop (s : DState) :
    ((s.historyIndex = 0 ∨ s.historyIndex = -1) → undo s = s) ∧
    (s.historyIndex = (s.history.length : Int) - 1 → redo s = s) := by
  constructor
  · intro h
    unfold undo
    rw [if_neg (by omega : ¬ 0 < s.historyIndex)]
  · intro h
    unfold redo
    rw [if_neg (by omega : ¬ s.historyIndex < (s.history.length : Int) - 1)]

/-- C6 witness: on `stIdle` (cursor `0`, one entry, so also at the last
index) both `undo` and `redo` are no-ops. -/
theorem C6_out_of_range_noop_witness :
    undo stIdle = stIdle ∧ redo stIdle = stIdle :=
  ⟨(C6_out_of_range_noop stIdle).1 (Or.inl rfl),
   (C6_out_of_range_noop stIdle).2 (by decide)⟩

/-- C7: for every state, `clearCanvas` empties the history, resets the
cursor to `-1`, wipes the surface blank, pushes no blank snapshot (the
history is literally `[]`), and is itself not undoable: an immediately
following `undo()` is a no-op. -/
theorem C7_clear_resets_and_not_undoable (s : DState) :
    (clearCanvas s).history = [] ∧ (clearCanvas s).historyIndex = -1 ∧
    (clearCanvas s).surface = [] ∧ undo (clearCanvas s) = clearCanvas s := by
  refine ⟨rfl, rfl, rfl, ?_⟩
  unfold undo
  rw [if_neg (by norm_num [clearCanvas] : ¬ 0 < (clearCanvas s).historyIndex)]

/-- C8 counterexample: the claim says a mid-stroke tool change is reflected
in segments drawn after the change *and only in those*. The code violates
the "only in those" part: `beginPath` is never called between segments, so
each `ctx.stroke()` re-strokes the whole accumulated path with the current
settings. Concretely, in `stStroke2` the segment `(1,1)–(2,2)` has been
painted red; after switching the color to blue mid-stroke, the very next
`draw` paints that earlier segment again, now blue — the change reaches a
segment drawn *before* the change. -/
theorem C8_midstroke_repaint_counterexample :
    stStroke2.isDrawing = true ∧
    (⟨⟨1, 1⟩, ⟨2, 2⟩, 4, "#FF0000"⟩ : Segment) ∈ stStroke2.surface ∧
    (⟨⟨1, 1⟩, ⟨2, 2⟩, 4, "#0000FF"⟩ : Segment) ∈
      (draw ⟨3, 3⟩ (setColor "#0000FF" stStroke2)).surface := by
  refine ⟨rfl, by decide, by decide⟩

/-- C8 amended: while a stroke is in progress, each `draw` call strokes the
*entire* in-progress path with the `strokeWidth` and `color` current at the
moment of that call (not the values at stroke start) — so a mid-stroke tool
change is reflected in all paint applied after the change, which includes a
re-paint of the earlier segments of the current stroke; paint already on
the surface is never altered, only appended to. -/
theorem C8_stroke_repaints_path_with_current_tool (s : DState) (pos : Point) (w : Int)
    (c : String) (h : s.isDrawing = true) :
    (draw pos s).surface = s.surface ++ pathSegments (s.path ++ [pos]) s.strokeWidth s.color ∧
    (draw pos (setStrokeWidth w (setColor c s))).surface =
      s.surface ++ pathSegments (s.path ++ [pos]) w c := by
  constructor
  · unfold draw
    rw [if_pos h]
  · unfold draw setStrokeWidth setColor
    rw [if_pos h]

/-- C8 witness: on `stStroke2` (stroke in progress, path `[(1,1), (2,2)]`),
one `draw` to `(3,3)` paints the whole path with the current width 4 / red,
and after switching to width 12 / blue mid-stroke the next `draw` paints
the whole path — the earlier `(1,1)–(2,2)` segment included — with the new
values. -/
theorem C8_stroke_repaints_witness :
    stStroke2.isDrawing = true ∧
    ((draw ⟨3, 3⟩ stStroke2).surface =
      stStroke2.surface ++
        pathSegments (stStroke2.path ++ [⟨3, 3⟩]) stStroke2.strokeWidth stStroke2.color ∧
    (draw ⟨3, 3⟩ (setStrokeWidth 12 (setColor "#0000FF" stStroke2))).surface =
      stStroke2.surface ++ pathSegments (stStroke2.path ++ [⟨3, 3⟩]) 12 "#0000FF") :=
  ⟨rfl, C8_stroke_repaints_path_with_current_tool stStroke2 ⟨3, 3⟩ 12 "#0000FF" rfl⟩

/-- C9: `getMousePos` computes exactly the spec's mapping
`surfaceX = (pointerX - rectLeft) * logicalWidth / displayedWidth` (and
likewise for Y) for all inputs; it is a pure function of its arguments. -/
theorem C9_getMousePos_matches_spec (cw ch rl rt rw rh cx cy : ℚ) :
    getMousePos cw ch rl rt rw rh cx cy = getMousePosSpec cw ch rl rt rw rh cx cy := by
  unfold getMousePos getMousePosSpec
  rw [Point.mk.injEq]
  constructor <;> rw [mul_div_assoc]

/-- C10: `undo` and `redo` never change the history sequence itself (same
list, hence same length and entries); they also leave the stroke flag and
the path's current point alone — only the cursor, the surface, and the
restored tool state can change. -/
theorem C10_undo_redo_preserve_history (s : DState) :
    (undo s).history = s.history ∧ (redo s).history = s.history ∧
    (undo s).isDrawing = s.isDrawing ∧ (redo s).isDrawing = s.isDrawing ∧
    (undo s).lastPos = s.lastPos ∧ (redo s).lastPos = s.lastPos := by
  have hu : (undo s).history = s.history ∧ (undo s).isDrawing = s.isDrawing ∧
      (undo s).lastPos = s.lastPos := by
    unfold undo
    split <;>
      simp [loadHistoryState_history, loadHistoryState_isDrawing, loadHistoryState_lastPos]
  have hr : (redo s).history = s.history ∧ (redo s).isDrawing = s.isDrawing ∧
      (redo s).lastPos = s.lastPos := by
    unfold redo
    split <;>
      simp [loadHistoryState_history, loadHistoryState_isDrawing, loadHistoryState_lastPos]
  exact ⟨hu.1, hr.1, hu.2.1, hr.2.1, hu.2.2, hr.2.2⟩

end DrawingApp
